import Mathlib

/-!
Verification of the MCP server of this repository against its
natural-language specification.

The development shallowly embeds the JavaScript sources:

* `src/src/tools/append-string.js` — `validateStringInput`,
  `formatMCPResponse`, `formatMCPError`, `appendString`;
* `src/src/mcp-server.js`        — the tool registry (`registerTool`,
  `getTool`, `getAllTools`), `handleToolsList`, `handleToolCall`,
  `handleRequest`, `createErrorResponse` and `processMessage`.

JavaScript dynamic values are embedded as the inductive `JSValue`, with
truthiness, `typeof`, property reads (including the `TypeError` thrown by a
read on `null`/`undefined`) and template-literal stringification modelled
explicitly.  The file-access collaborators (`createPrdFileExists`,
`getCreatePrdFileInfo`, `readCreatePrdFile`) are external to the specified
core; they are modelled by an explicit environment `FileEnv` carrying the
reference document's availability, content and stat information, and the
clock (`new Date().toISOString()`) is a field of the same environment.
-/

namespace MCP

/-- A JavaScript runtime value, as far as the embedded code inspects one:
`undefined`, `null`, booleans, numbers (integral values suffice for every
value the code produces or tests), strings, plain objects (insertion-ordered
field list) and arrays. -/
inductive JSValue where
  | undefined
  | null
  | bool (b : Bool)
  | num (n : Int)
  | str (s : String)
  | obj (fields : List (String × JSValue))
  | arr (elems : List JSValue)
deriving Inhabited

/-- JavaScript `typeof`.  Note `typeof null` is `"object"`, and arrays are
`"object"` as well. -/
def typeofJS : JSValue → String
  | .undefined => "undefined"
  | .null => "object"
  | .bool _ => "boolean"
  | .num _ => "number"
  | .str _ => "string"
  | .obj _ => "object"
  | .arr _ => "object"

/-- JavaScript truthiness: `undefined`, `null`, `false`, `0` and `""` are
falsy; every object and array is truthy. -/
def truthy : JSValue → Bool
  | .undefined => false
  | .null => false
  | .bool b => b
  | .num n => n != 0
  | .str s => s != ""
  | .obj _ => true
  | .arr _ => true

/-- First binding of a key in an insertion-ordered field list; a missing key
reads as `undefined`, as in JavaScript. -/
def lookupField (fields : List (String × JSValue)) (k : String) : JSValue :=
  match fields.find? (fun p => p.1 == k) with
  | some p => p.2
  | none => .undefined

/-- A property read `v.k`.  On `null` and `undefined` it throws a
`TypeError` (the `Except.error` carries the Node.js message); on an object it
yields the field or `undefined`; on primitives and arrays none of the names
the embedded code reads is a built-in property, so the read yields
`undefined`. -/
def getProp : JSValue → String → Except String JSValue
  | .undefined, k => .error ("Cannot read properties of undefined (reading '" ++ k ++ "')")
  | .null, k => .error ("Cannot read properties of null (reading '" ++ k ++ "')")
  | .obj fields, k => .ok (lookupField fields k)
  | _, _ => .ok .undefined

/-- An optional-chain read `v?.k`, and also the total read used once `v` is
known to be neither `null` nor `undefined`. -/
def fieldOf (v : JSValue) (k : String) : JSValue :=
  match v with
  | .obj fields => lookupField fields k
  | _ => .undefined

/-- The `in` operator restricted to how the embedded code uses it
(`requiredParam in args` after `typeof args === 'object'`): own-field
membership on objects, `false` elsewhere. -/
def hasField (v : JSValue) (k : String) : Bool :=
  match v with
  | .obj fields => fields.any (fun p => p.1 == k)
  | _ => false

/-- Template-literal stringification `${v}` for the values the embedded code
interpolates: `undefined`, `null`, booleans, numbers and strings.  (A plain
object prints `[object Object]`; array stringification is not reached by any
embedded code path and is elided.) -/
def jsToString : JSValue → String
  | .undefined => "undefined"
  | .null => "null"
  | .bool b => if b then "true" else "false"
  | .num n => toString n
  | .str s => s
  | .obj _ => "[object Object]"
  | .arr _ => ""

/-! ### JavaScript `String.prototype.trim` and `.length` -/

/-- The white-space characters `trim` strips (the ASCII part of the
ECMAScript WhiteSpace/LineTerminator classes; the embedded properties do not
depend on the exotic Unicode space separators). -/
def isJSWhitespace (c : Char) : Bool :=
  c == ' ' || c == '\t' || c == '\n' || c == '\r' || c == '\x0b' || c == '\x0c'

/-- Strip leading and trailing white space from a character list. -/
def jsTrimList (l : List Char) : List Char :=
  ((l.dropWhile isJSWhitespace).reverse.dropWhile isJSWhitespace).reverse

/-- `String.prototype.trim`. -/
def jsTrim (s : String) : String :=
  String.mk (jsTrimList s.data)

/-! ### The content filter of `validateStringInput`

`append-string.js` tests the trimmed input against four regular expressions:
a `<script …>…</script>` pattern, `javascript:`, `data:text/html` and
`vbscript:`, all with the `i` flag.  The last three are case-insensitive
substring tests.  The first,
`<script\b[^<]*(?:(?!<\/script>)<[^<]*)*<\/script>`, matches at a position
exactly when the (lower-cased) text has `<script` there, followed by a
non-word character or the end of the text (the `\b`), with `</script>`
occurring anywhere later: the `[^<]*(…)*` body accepts every character
sequence up to the first later `</script>`.  The checker below implements
that characterisation directly on the lower-cased character list. -/

/-- An ECMAScript word character, for the `\b` boundary: `[A-Za-z0-9_]`. -/
def isWordChar (c : Char) : Bool :=
  c.isAlphanum || c == '_'

/-- Whether `pat` occurs as a contiguous run anywhere in `l`. -/
def infixOfCL (pat : List Char) : List Char → Bool
  | [] => pat.isPrefixOf ([] : List Char)
  | c :: tl => pat.isPrefixOf (c :: tl) || infixOfCL pat tl

/-- Whether a match of the script-tag regular expression starts at the head
of `l` (`l` already lower-cased). -/
def scriptTagAt (l : List Char) : Bool :=
  "<script".toList.isPrefixOf l &&
    (match l.drop 7 with
     | [] => true
     | c :: _ => !isWordChar c) &&
    infixOfCL "</script>".toList (l.drop 7)

/-- Whether a match of the script-tag regular expression starts anywhere in
`l`. -/
def containsScriptTag : List Char → Bool
  | [] => false
  | c :: tl => scriptTagAt (c :: tl) || containsScriptTag tl

/-- The denylist test of `validateStringInput` (all four patterns carry the
`i` flag, so the text is lower-cased first; each `RegExp` object is created
afresh per call, so the `lastIndex` state of the `g` flag never carries
over). -/
def containsHarmfulContent (s : String) : Bool :=
  let l := s.data.map Char.toLower
  containsScriptTag l ||
    infixOfCL "javascript:".toList l ||
    infixOfCL "data:text/html".toList l ||
    infixOfCL "vbscript:".toList l

/-! ### `validateStringInput` -/

/-- The validation result object: `{valid:false, error}` or
`{valid:true, cleanedString, originalLength, cleanedLength}`. -/
inductive ValidationResult where
  | invalid (error : String)
  | valid (cleanedString : String) (originalLength : Nat) (cleanedLength : Nat)
deriving Inhabited, DecidableEq

def ValidationResult.isValid : ValidationResult → Bool
  | .invalid _ => false
  | .valid _ _ _ => true

/-- `validateStringInput` of `append-string.js`, check for check:
`null`/`undefined`; `typeof`; emptiness after trim; the 10,000-character
limit on the trimmed length; the content denylist. -/
def validateStringInput : JSValue → ValidationResult
  | .undefined => .invalid "String to append is required"
  | .null => .invalid "String to append is required"
  | .str s =>
    let trimmedString := jsTrim s
    if trimmedString.length == 0 then
      .invalid "String to append cannot be empty or contain only whitespace"
    else if trimmedString.length > 10000 then
      .invalid ("String to append is too long (" ++ toString trimmedString.length ++
        " characters, maximum 10,000)")
    else if containsHarmfulContent trimmedString then
      .invalid "String to append contains potentially harmful content"
    else
      .valid trimmedString s.length trimmedString.length
  | v => .invalid ("String to append must be a string type, got " ++ typeofJS v)

example : validateStringInput (.str "hello") = .valid "hello" 5 5 := by decide
example : validateStringInput (.str "  hi  ") = .valid "hi" 6 2 := by decide
example : validateStringInput (.str "   ") =
    .invalid "String to append cannot be empty or contain only whitespace" := by decide
example : validateStringInput (.num 123) =
    .invalid "String to append must be a string type, got number" := by decide
example : validateStringInput (.str "click javascript:alert(1)") =
    .invalid "String to append contains potentially harmful content" := by decide
example : validateStringInput (.str "<script>x</script>") =
    .invalid "String to append contains potentially harmful content" := by decide
example : (validateStringInput (.str "<scripture> holy text")).isValid = true := by decide

/-! ### The file-access collaborators and `appendString`

`createPrdFileExists`, `getCreatePrdFileInfo` and `readCreatePrdFile` live in
`src/src/utils/file-reader.js`, outside the specified core ("treated as
external collaborators").  `FileEnv` records what they answer during one
call, plus the clock. -/

/-- The reference document as the file collaborators present it, and the
clock. -/
structure FileEnv where
  /-- What `createPrdFileExists()` resolves with (existence and readability). -/
  prdExists : Bool
  /-- The `error` field of `getCreatePrdFileInfo()` (`none` when absent). -/
  prdInfoError : Option String
  /-- What `readCreatePrdFile()` resolves with when the file is accessible. -/
  prdContent : String
  /-- The `size` field of `getCreatePrdFileInfo()`. -/
  prdSize : Nat
  /-- The `lastModified` field of `getCreatePrdFileInfo()`. -/
  prdLastModified : String
  /-- What `new Date().toISOString()` returns during the call. -/
  now : String
deriving Inhabited

/-- The metadata object `formatMCPResponse` builds:
`{operation, timestamp, contentLength}` spread with the extras `appendString`
passes (`originalFileSize`, `appendedStringLength`, `validationInfo`,
`fileInfo`). -/
structure MCPMetadata where
  operation : String
  timestamp : String
  contentLength : Nat
  originalFileSize : Nat
  appendedStringLength : Nat
  validationOriginalLength : Nat
  validationCleanedLength : Nat
  fileInfoSize : Nat
  fileInfoLastModified : String
deriving Inhabited, DecidableEq

/-- The success value of `appendString`: `{content, metadata}`. -/
structure MCPResponse where
  content : String
  metadata : MCPMetadata
deriving Inhabited, DecidableEq

/-- `formatMCPResponse` of `append-string.js`, applied as `appendString`
applies it. -/
def formatMCPResponse (env : FileEnv) (content : String)
    (originalFileSize appendedStringLength : Nat)
    (validationOriginalLength validationCleanedLength : Nat) : MCPResponse :=
  { content := content,
    metadata := { operation := "append-string",
                  timestamp := env.now,
                  contentLength := content.length,
                  originalFileSize := originalFileSize,
                  appendedStringLength := appendedStringLength,
                  validationOriginalLength := validationOriginalLength,
                  validationCleanedLength := validationCleanedLength,
                  fileInfoSize := env.prdSize,
                  fileInfoLastModified := env.prdLastModified } }

/-- The `details` object of `formatMCPError`: `{operation, timestamp}` spread
with `{inputLength, inputType}`. -/
structure MCPErrorDetails where
  operation : String
  timestamp : String
  inputLength : Nat
  inputType : String
deriving Inhabited, DecidableEq

/-- The inner object of a `formatMCPError` value:
`{message, code, details}`. -/
structure MCPErrorPayload where
  message : String
  code : String
  details : MCPErrorDetails
deriving Inhabited, DecidableEq

/-- `formatMCPError` of `append-string.js`: builds the inner
`{message, code, details}` object. -/
def formatMCPError (error : String) (code : String) (env : FileEnv)
    (inputLength : Nat) (inputType : String) : MCPErrorPayload :=
  { message := error, code := code,
    details := { operation := "append-string",
                 timestamp := env.now,
                 inputLength := inputLength,
                 inputType := inputType } }

/-- The value `appendString` throws is the plain object
`{error: {message, code, details}}` that `formatMCPError` returns — an
object whose only top-level key is `"error"` (in particular it has no
top-level `message` property). -/
def thrownJS (p : MCPErrorPayload) : JSValue :=
  .obj [("error", .obj [
    ("message", .str p.message),
    ("code", .str p.code),
    ("details", .obj [
      ("operation", .str p.details.operation),
      ("timestamp", .str p.details.timestamp),
      ("inputLength", .num p.details.inputLength),
      ("inputType", .str p.details.inputType)])])]

/-- `stringToAppend?.length || 0`, as evaluated in the `catch` of
`appendString`: the length of a string input, `0` for every other value
(`?.length` is `undefined` there, and `undefined || 0` is `0`). -/
def jsLengthOrZero : JSValue → Nat
  | .str s => s.length
  | _ => 0

/-- `fileInfo.error || 'File not found'`: the collaborator's error string,
with the falsy cases (`undefined`, `""`) replaced by the fallback. -/
def fileInfoErrorMsg (env : FileEnv) : String :=
  match env.prdInfoError with
  | some e => if e == "" then "File not found" else e
  | none => "File not found"

/-- The `try` body of `appendString`: validation, the accessibility check,
the emptiness check on the read content, and the combination
`fileContent + '\n\n' + trimmedString`.  An `Except.error` is the `message`
of the `Error` thrown at the corresponding step. -/
def appendStringCore (env : FileEnv) (stringToAppend : JSValue) :
    Except String MCPResponse :=
  match validateStringInput stringToAppend with
  | .invalid e => .error e
  | .valid trimmedString originalLength cleanedLength =>
    if !env.prdExists then
      .error ("create-prd.md file is not accessible: " ++ fileInfoErrorMsg env)
    else
      let fileContent := env.prdContent
      if fileContent == "" || (jsTrim fileContent).length == 0 then
        .error "create-prd.md file is empty or contains only whitespace"
      else
        let combinedContent := fileContent ++ "\n\n" ++ trimmedString
        .ok (formatMCPResponse env combinedContent fileContent.length
          trimmedString.length originalLength cleanedLength)

/-- `appendString` of `append-string.js`.  Success is the
`formatMCPResponse` value; failure is the `formatMCPError` object the
`catch` block throws (`throw formatMCPError(error.message, 'APPEND_ERROR',
{inputLength: stringToAppend?.length || 0, inputType: typeof
stringToAppend})`). -/
def appendString (env : FileEnv) (stringToAppend : JSValue) :
    Except MCPErrorPayload MCPResponse :=
  match appendStringCore env stringToAppend with
  | .ok r => .ok r
  | .error msg =>
    .error (formatMCPError msg "APPEND_ERROR" env (jsLengthOrZero stringToAppend)
      (typeofJS stringToAppend))

/-! ### The tool registry (`mcp-server.js`) -/

/-- The `inputSchema` of a tool descriptor.  Only `required` is interpreted
by the dispatcher; `type` and `properties` pass through `tools/list`
verbatim.  `required := none` models a falsy `required` field. -/
structure InputSchema where
  type : String
  properties : JSValue
  required : Option (List String)
deriving Inhabited

/-- A registered tool: the `{name, description, inputSchema, metadata}`
value `registerTool` stores.  `inputSchema := none` models a falsy
`inputSchema`. -/
structure Tool where
  name : String
  description : String
  inputSchema : Option InputSchema
  metadata : JSValue
deriving Inhabited

/-- The `this.tools` map: a JavaScript `Map` iterates in insertion order, so
it is embedded as an insertion-ordered association list with unique keys. -/
abbrev Registry := List (String × Tool)

/-- `this.tools.has(name)`. -/
def hasTool (tools : Registry) (name : String) : Bool :=
  tools.any (fun p => p.1 == name)

/-- `this.tools.get(name)` / `getTool`. -/
def getTool (tools : Registry) (name : String) : Option Tool :=
  match tools.find? (fun p => p.1 == name) with
  | some p => some p.2
  | none => none

/-- `getAllTools`: `Array.from(this.tools.values())`, in insertion order. -/
def getAllTools (tools : Registry) : List Tool :=
  tools.map (fun p => p.2)

/-- The `config` argument of `registerTool`. -/
structure ToolConfig where
  description : String
  inputSchema : Option InputSchema
  metadata : JSValue
deriving Inhabited

/-- The `{name, description, inputSchema, metadata}` value `registerTool`
stores for a name and a config. -/
def mkTool (name : String) (config : ToolConfig) : Tool :=
  { name := name,
    description := config.description,
    inputSchema := config.inputSchema,
    metadata := config.metadata }

/-- `registerTool`: throws on a duplicate name, otherwise inserts at the end
of the map's iteration order. -/
def registerTool (tools : Registry) (name : String) (config : ToolConfig) :
    Except String Registry :=
  if hasTool tools name then
    .error ("Tool '" ++ name ++ "' is already registered")
  else
    .ok (tools ++ [(name, mkTool name config)])

/-- `unregisterTool`: throws when absent, otherwise deletes the entry
(`Map.delete`; with unique keys, removing every binding of the name). -/
def unregisterTool (tools : Registry) (name : String) : Except String Registry :=
  if !hasTool tools name then
    .error ("Tool '" ++ name ++ "' is not registered")
  else
    .ok (tools.filter (fun p => p.1 != name))

/-! ### Responses and the dispatcher -/

/-- The `error` member of a JSON-RPC error response. -/
structure RpcError where
  code : Int
  message : String
deriving Inhabited, DecidableEq

/-- The `result` member of a success response: the `tools/list` payload, or
a tool result.  A tool result that already carries a `content` field passes
through unchanged (`appendString` results always do); any other value would
be wrapped as `{content: value}` (the legacy branch, never reached by the
one registered tool). -/
inductive RpcResult where
  | tools (ts : List Tool)
  | mcp (r : MCPResponse)
  | wrapped (v : JSValue)
deriving Inhabited

/-- A JSON-RPC response object as the server builds one: `jsonrpc: '2.0'`,
the `id` echoed as a raw JavaScript value (possibly `undefined`, which
`JSON.stringify` then omits), and `result` or `error`. -/
structure Response where
  jsonrpc : String := "2.0"
  id : JSValue
  result : Option RpcResult := none
  error : Option RpcError := none
deriving Inhabited

/-- `createErrorResponse`. -/
def createErrorResponse (id : JSValue) (message : String) (code : Int) :
    Response :=
  { id := id, error := some { code := code, message := message } }

/-- `handleToolsList`: the registered tools, projected onto
`{name, description, inputSchema, metadata}` — exactly the fields a `Tool`
carries — in registration order. -/
def handleToolsList (tools : Registry) (id : JSValue) : Response :=
  { id := id, result := some (.tools (getAllTools tools)) }

/-- `tool.inputSchema && tool.inputSchema.required`, as the list the
`for…of` loop ranges over (falsy `inputSchema` or `required` skips the
loop, like an empty list). -/
def requiredOf (tool : Tool) : List String :=
  match tool.inputSchema with
  | none => []
  | some schema => schema.required.getD []

/-- The first required parameter the loop finds missing from `args`
(`!(requiredParam in args)`), if any. -/
def firstMissing (required : List String) (args : JSValue) : Option String :=
  required.find? (fun p => !hasField args p)

/-- `handleToolCall` of `mcp-server.js`.  The branches follow the source:
the tool-name check (`!name || typeof name !== 'string'`), the registry
lookup (`this.tools.has` / `this.getTool` — collapsed into one `getTool`
match, the two agree on a `Map`), the arguments check, the
required-parameter loop, and the `switch` whose one implemented case
validates `typeof args.stringToAppend` and awaits `appendString`; the
`catch` turns the thrown `formatMCPError` object into
`Tool execution error: ${error.message}` with code -32603, where
`error.message` is a property read on the thrown object. -/
def handleToolCall (env : FileEnv) (tools : Registry) (params : JSValue)
    (id : JSValue) : Response :=
  match fieldOf params "name" with
  | .str nameStr =>
    if nameStr == "" then
      createErrorResponse id "Invalid request: tool name must be a string" (-32600)
    else
      match getTool tools nameStr with
      | none => createErrorResponse id ("Tool '" ++ nameStr ++ "' not found") (-32601)
      | some tool =>
        let args := fieldOf params "arguments"
        if !truthy args || typeofJS args != "object" then
          createErrorResponse id "Invalid request: arguments must be an object" (-32600)
        else
          match firstMissing (requiredOf tool) args with
          | some requiredParam =>
            createErrorResponse id ("Missing required parameter: " ++ requiredParam)
              (-32602)
          | none =>
            if nameStr == "append-string" then
              match fieldOf args "stringToAppend" with
              | .str s =>
                match appendString env (.str s) with
                | .ok result => { id := id, result := some (.mcp result) }
                | .error payload =>
                  createErrorResponse id
                    ("Tool execution error: " ++
                      jsToString (fieldOf (thrownJS payload) "message"))
                    (-32603)
              | _ =>
                createErrorResponse id
                  "Invalid parameter: stringToAppend must be a string" (-32602)
            else
              createErrorResponse id ("Tool '" ++ nameStr ++ "' not implemented")
                (-32601)
  | _ => createErrorResponse id "Invalid request: tool name must be a string" (-32600)

/-- `id === undefined || id === null`. -/
def isNullOrUndef : JSValue → Bool
  | .undefined => true
  | .null => true
  | _ => false

/-- `handleRequest` of `mcp-server.js`: the envelope checks (object shape,
string `method`, required `id`), then dispatch on `method`. -/
def handleRequest (env : FileEnv) (tools : Registry) (request : JSValue) :
    Response :=
  if !truthy request || typeofJS request != "object" then
    createErrorResponse .null "Invalid request: must be an object" (-32600)
  else
    let id := fieldOf request "id"
    match fieldOf request "method" with
    | .str m =>
      if m == "" then
        createErrorResponse id "Invalid request: method must be a string" (-32600)
      else if isNullOrUndef id then
        createErrorResponse .null "Invalid request: id is required" (-32600)
      else if m == "tools/list" then
        handleToolsList tools id
      else if m == "tools/call" then
        let params := fieldOf request "params"
        if !truthy params || typeofJS params != "object" then
          createErrorResponse id "Invalid request: params must be an object" (-32600)
        else
          handleToolCall env tools params id
      else
        createErrorResponse id ("Method '" ++ m ++ "' not found") (-32601)
    | _ => createErrorResponse id "Invalid request: method must be a string" (-32600)

/-! ### `processMessage` and the line loop -/

/-- The outcome of `JSON.parse` on one input line: a value, or a thrown
`SyntaxError`.  The parser itself is the platform's; the embedding treats it
as an oracle. -/
inductive ParseOutcome where
  | success (v : JSValue)
  | failure
deriving Inhabited

/-- `request.jsonrpc !== '2.0'` combined with `!request.jsonrpc`: the
version check passes exactly for the string `"2.0"` (which is truthy). -/
def isVersion20 : JSValue → Bool
  | .str s => s == "2.0"
  | _ => false

/-- `processMessage` of `mcp-server.js` after `JSON.parse`: a parse failure
is answered `-32700` with `id: null`; a `TypeError` thrown by the
`request.jsonrpc` read on a parsed `null` escapes to the same `catch`,
which answers `Internal error: …` with code `-32603` (it is not a
`SyntaxError`); a parsed value that is not versioned `"2.0"` is answered
`-32600` with `request?.id`; otherwise the request goes to
`handleRequest`. -/
def processMessage (env : FileEnv) (tools : Registry) (parsed : ParseOutcome) :
    Response :=
  match parsed with
  | .failure => createErrorResponse .null "Parse error: Invalid JSON" (-32700)
  | .success request =>
    match getProp request "jsonrpc" with
    | .error msg => createErrorResponse .null ("Internal error: " ++ msg) (-32603)
    | .ok jr =>
      if !isVersion20 jr then
        createErrorResponse (fieldOf request "id") "Invalid JSON-RPC version" (-32600)
      else
        handleRequest env tools request

/-- The stdin loop of `start()`, one buffered line at a time: each non-empty
line is parsed and answered independently, in arrival order (`parse` is the
`JSON.parse` oracle). -/
def processLines (env : FileEnv) (tools : Registry)
    (parse : String → ParseOutcome) (lines : List String) : List Response :=
  lines.map (fun line => processMessage env tools (parse line))

/-! ### The server as initialized -/

/-- The `inputSchema` of the one registered tool, from `initialize()`. -/
def appendStringSchema : InputSchema :=
  { type := "object",
    properties := .obj [("stringToAppend", .obj [
      ("type", .str "string"),
      ("description", .str "The string to append to the create-prd.md content"),
      ("minLength", .num 1),
      ("maxLength", .num 10000)])],
    required := some ["stringToAppend"] }

/-- The descriptor `initialize()` registers for `append-string`. -/
def appendStringConfig : ToolConfig :=
  { description := "Reads create-prd.md and appends a string to it",
    inputSchema := some appendStringSchema,
    metadata := .obj [
      ("version", .str "1.0.0"),
      ("author", .str "ai-dev-tasks"),
      ("category", .str "file-processing"),
      ("tags", .arr [.str "string", .str "append", .str "markdown", .str "file"]),
      ("capabilities", .arr [.str "file-reading", .str "string-processing",
        .str "content-combination"])] }

/-- The registry after `initialize()`: the one `registerTool` call on the
empty map. -/
def initialTools : Registry :=
  match registerTool [] "append-string" appendStringConfig with
  | .ok r => r
  | .error _ => []

/-- A concrete file environment for witnesses: the reference document of the
spec's concrete scenario. -/
def defaultEnv : FileEnv :=
  { prdExists := true, prdInfoError := none,
    prdContent := "# Create PRD\n\nOriginal content",
    prdSize := 1000, prdLastModified := "2024-01-01T00:00:00.000Z",
    now := "2024-01-01T00:00:00.000Z" }

example :
    appendString defaultEnv (.str "## New Section\n\nNew content here") =
      .ok (formatMCPResponse defaultEnv
        "# Create PRD\n\nOriginal content\n\n## New Section\n\nNew content here"
        30 32 32 32) := by
  rfl

/-! ### Helper lemmas -/

/-- A validation that reports `valid` reports exactly the trimmed input, the
input's length and the trimmed length. -/
lemma validate_isValid_eq (s : String)
    (h : (validateStringInput (.str s)).isValid = true) :
    validateStringInput (.str s) = .valid (jsTrim s) s.length (jsTrim s).length := by
  simp only [validateStringInput] at h ⊢
  split_ifs at h ⊢ <;> simp_all [ValidationResult.isValid]

lemma jsTrim_empty : jsTrim "" = "" := rfl

/-- The emptiness guard of `appendString` is off exactly when the content
trims to something non-empty. -/
lemma content_guard_false (D : String) (hD : (jsTrim D).length ≠ 0) :
    (D == "" || (jsTrim D).length == 0) = false := by
  rcases eq_or_ne D "" with h | h
  · subst h; simp [jsTrim_empty] at hD
  · simp [h, hD]

/-! ### C1 -/

/-- C1.  For every reference document content `D` that is non-empty after
trimming (presented by an environment in which the file is accessible) and
every input string `S` that passes validation, `appendString` succeeds and
its combined content is exactly `D ++ "\n\n" ++ trim S` — and any second
call against an environment presenting the same `D` (whatever its clock or
stat fields) produces byte-for-byte the same combined content: the
combination is deterministic, with no hidden state across calls. -/
theorem appendString_combines (env : FileEnv) (S : String)
    (hex : env.prdExists = true)
    (hD : (jsTrim env.prdContent).length ≠ 0)
    (hS : (validateStringInput (.str S)).isValid = true) :
    ∃ r, appendString env (.str S) = .ok r ∧
      r.content = env.prdContent ++ "\n\n" ++ jsTrim S ∧
      ∀ env₂ : FileEnv, env₂.prdExists = true →
        env₂.prdContent = env.prdContent →
          ∃ r₂, appendString env₂ (.str S) = .ok r₂ ∧ r₂.content = r.content := by
  have hv := validate_isValid_eq S hS
  refine ⟨formatMCPResponse env (env.prdContent ++ "\n\n" ++ jsTrim S)
    env.prdContent.length (jsTrim S).length S.length (jsTrim S).length, ?_, rfl, ?_⟩
  · unfold appendString appendStringCore
    rw [hv, hex]
    simp [content_guard_false env.prdContent hD]
  · intro env₂ hex₂ hsame
    refine ⟨formatMCPResponse env₂ (env₂.prdContent ++ "\n\n" ++ jsTrim S)
      env₂.prdContent.length (jsTrim S).length S.length (jsTrim S).length, ?_, ?_⟩
    · unfold appendString appendStringCore
      rw [hv, hex₂]
      simp [content_guard_false env₂.prdContent (hsame ▸ hD)]
    · simp [formatMCPResponse, hsame]

/-- C1 witness: the spec's concrete scenario, run twice against environments
that differ in their clock. -/
theorem appendString_combines_witness :
    ∃ r, appendString defaultEnv (.str "## New Section\n\nNew content here") = .ok r ∧
      r.content = defaultEnv.prdContent ++ "\n\n" ++
        jsTrim "## New Section\n\nNew content here" ∧
      ∀ env₂ : FileEnv, env₂.prdExists = true →
        env₂.prdContent = defaultEnv.prdContent →
          ∃ r₂, appendString env₂ (.str "## New Section\n\nNew content here") = .ok r₂ ∧
            r₂.content = r.content :=
  appendString_combines defaultEnv "## New Section\n\nNew content here"
    rfl (by decide) (by decide)

/-! ### C2 -/

/-- A run of `n` letters `a`, used to exhibit inputs at the 10,000-character
boundary without asking the kernel to evaluate the validator on them. -/
def repA (n : Nat) : String := String.mk (List.replicate n 'a')

lemma jsTrim_mk (l : List Char) : jsTrim (String.mk l) = String.mk (jsTrimList l) := rfl

lemma length_mk (l : List Char) : (String.mk l).length = l.length := rfl

lemma dropWhile_replicate_a (n : Nat) :
    List.dropWhile isJSWhitespace (List.replicate n 'a') = List.replicate n 'a' := by
  cases n with
  | zero => rfl
  | succ m =>
    rw [List.replicate_succ, List.dropWhile_cons]
    simp [(by decide : isJSWhitespace 'a' = false), List.replicate_succ]

lemma jsTrimList_replicate_a (n : Nat) :
    jsTrimList (List.replicate n 'a') = List.replicate n 'a' := by
  unfold jsTrimList
  rw [dropWhile_replicate_a, List.reverse_replicate, dropWhile_replicate_a,
    List.reverse_replicate]

lemma jsTrim_repA (n : Nat) : jsTrim (repA n) = repA n := by
  simp [repA, jsTrim_mk, jsTrimList_replicate_a]

lemma length_repA (n : Nat) : (repA n).length = n := by
  simp [repA, length_mk]

lemma prefix_replicate_a_false {d : Char} (tl : List Char) (h : (d == 'a') = false) :
    ∀ n, (d :: tl).isPrefixOf (List.replicate n 'a') = false := by
  intro n
  cases n with
  | zero => rfl
  | succ m => rw [List.replicate_succ]; simp [List.isPrefixOf, h]

lemma infixOfCL_replicate_a_false {d : Char} (tl : List Char) (h : (d == 'a') = false) :
    ∀ n, infixOfCL (d :: tl) (List.replicate n 'a') = false := by
  intro n
  induction n with
  | zero => rfl
  | succ m ih =>
    rw [List.replicate_succ]
    simp only [infixOfCL, Bool.or_eq_false_iff]
    exact ⟨by simp [List.isPrefixOf, h], ih⟩

lemma scriptTagAt_cons_a (l : List Char) : scriptTagAt ('a' :: l) = false := by
  have h : ("<script".toList).isPrefixOf ('a' :: l) = false := by
    rw [show "<script".toList = '<' :: "script".toList from rfl]
    simp [List.isPrefixOf]
  simp [scriptTagAt, h]

lemma containsScriptTag_replicate_a :
    ∀ n, containsScriptTag (List.replicate n 'a') = false := by
  intro n
  induction n with
  | zero => rfl
  | succ m ih =>
    rw [List.replicate_succ]
    simp only [containsScriptTag, Bool.or_eq_false_iff]
    exact ⟨scriptTagAt_cons_a _, ih⟩

lemma harmful_repA (n : Nat) : containsHarmfulContent (repA n) = false := by
  have hdata : (repA n).data = List.replicate n 'a' := rfl
  unfold containsHarmfulContent
  simp only [hdata, List.map_replicate, (by decide : Char.toLower 'a' = 'a')]
  rw [containsScriptTag_replicate_a n,
    show "javascript:".toList = 'j' :: "avascript:".toList from rfl,
    show "data:text/html".toList = 'd' :: "ata:text/html".toList from rfl,
    show "vbscript:".toList = 'v' :: "bscript:".toList from rfl,
    infixOfCL_replicate_a_false _ (by decide) n,
    infixOfCL_replicate_a_false _ (by decide) n,
    infixOfCL_replicate_a_false _ (by decide) n]
  rfl

/-- C2.  The validation behaviour of the append handler:
`undefined`/`null` fail with the "required" message; a non-string value
fails reporting its `typeof`; a string that trims to empty fails with the
"empty or whitespace-only" message; a trimmed length above 10,000 fails
reporting the actual length; and a trimmed length of exactly 10,000 never
fails for length — validation then succeeds unless the independent content
denylist fires. -/
theorem validateStringInput_spec :
    (validateStringInput .undefined = .invalid "String to append is required") ∧
    (validateStringInput .null = .invalid "String to append is required") ∧
    (∀ v : JSValue, typeofJS v ≠ "string" → v ≠ .undefined → v ≠ .null →
      validateStringInput v =
        .invalid ("String to append must be a string type, got " ++ typeofJS v)) ∧
    (∀ s : String, (jsTrim s).length = 0 →
      validateStringInput (.str s) =
        .invalid "String to append cannot be empty or contain only whitespace") ∧
    (∀ s : String, (jsTrim s).length > 10000 →
      validateStringInput (.str s) =
        .invalid ("String to append is too long (" ++ toString (jsTrim s).length ++
          " characters, maximum 10,000)")) ∧
    (∀ s : String, (jsTrim s).length = 10000 →
      validateStringInput (.str s) = .valid (jsTrim s) s.length 10000 ∨
      validateStringInput (.str s) =
        .invalid "String to append contains potentially harmful content") := by
  refine ⟨rfl, rfl, ?_, ?_, ?_, ?_⟩
  · intro v hv hu hn
    cases v with
    | undefined => exact absurd rfl hu
    | null => exact absurd rfl hn
    | str s => exact absurd rfl hv
    | bool b => rfl
    | num n => rfl
    | obj fs => rfl
    | arr es => rfl
  · intro s h
    simp only [validateStringInput]
    simp [h]
  · intro s h
    simp only [validateStringInput]
    rw [if_neg, if_pos h]
    simp [Nat.pos_iff_ne_zero] at h ⊢
    omega
  · intro s h
    simp only [validateStringInput]
    rw [if_neg (by simp [h]), if_neg (by simp [h])]
    by_cases hc : containsHarmfulContent (jsTrim s) = true
    · right; simp [hc]
    · left
      simp only [Bool.not_eq_true] at hc
      simp [hc, h]

/-- C2 witness: each failing shape at a concrete input, plus the
10,000-character boundary exhibited on a run of 10,000 (resp. 10,001)
letters `a`. -/
theorem validateStringInput_spec_witness :
    (validateStringInput (.num 123) =
      .invalid ("String to append must be a string type, got " ++ typeofJS (.num 123))) ∧
    (validateStringInput (.str "   ") =
      .invalid "String to append cannot be empty or contain only whitespace") ∧
    (validateStringInput (.str (repA 10001)) =
      .invalid ("String to append is too long (" ++
        toString (jsTrim (repA 10001)).length ++ " characters, maximum 10,000)")) ∧
    (validateStringInput (.str (repA 10000)) =
      .valid (jsTrim (repA 10000)) (repA 10000).length 10000 ∨
     validateStringInput (.str (repA 10000)) =
      .invalid "String to append contains potentially harmful content") :=
  ⟨validateStringInput_spec.2.2.1 (.num 123) (by decide) (by simp) (by simp),
   validateStringInput_spec.2.2.2.1 "   " (by decide),
   validateStringInput_spec.2.2.2.2.1 (repA 10001)
     (by rw [jsTrim_repA, length_repA]; omega),
   validateStringInput_spec.2.2.2.2.2 (repA 10000)
     (by rw [jsTrim_repA, length_repA])⟩

/-! ### C3

The claim says a failing handler surfaces its own failure message inside the
-32603 response.  The code does return -32603, but the value `appendString`
throws is the plain object `{error: {message, …}}`, which has no top-level
`message` property: the dispatcher's template `Tool execution error:
${error.message}` therefore interpolates `undefined`, and the handler's
message is lost.  The theorem below evaluates the embedded code at a failing
input and records all three facts. -/

/-- C3 (the code at the failing input).  Calling the registered tool with the
whitespace-only argument `"   "` makes the handler fail with the message
`String to append cannot be empty or contain only whitespace`, yet the
dispatcher's response — code -32603 as claimed — carries the message
`Tool execution error: undefined`, which does not contain the handler's
message. -/
theorem toolCall_drops_handler_message :
    handleToolCall defaultEnv initialTools
        (.obj [("name", .str "append-string"),
               ("arguments", .obj [("stringToAppend", .str "   ")])]) (.num 1) =
      createErrorResponse (.num 1) "Tool execution error: undefined" (-32603) ∧
    appendString defaultEnv (.str "   ") =
      .error (formatMCPError
        "String to append cannot be empty or contain only whitespace"
        "APPEND_ERROR" defaultEnv 3 "string") ∧
    infixOfCL "String to append cannot be empty or contain only whitespace".toList
      "Tool execution error: undefined".toList = false :=
  ⟨rfl, rfl, by decide⟩

/-! ### C4 -/

/-- C4.  A line whose `JSON.parse` fails is answered by exactly one
response, the parse-error response with code -32700 and `id: null`, and the
surrounding lines are processed exactly as they would be on their own: the
failure leaks no state into any later (or earlier) request. -/
theorem parse_failure_isolated (env : FileEnv) (tools : Registry)
    (parse : String → ParseOutcome) (pre post : List String) (line : String)
    (h : parse line = .failure) :
    processLines env tools parse (pre ++ line :: post) =
      processLines env tools parse pre ++
        createErrorResponse .null "Parse error: Invalid JSON" (-32700) ::
          processLines env tools parse post := by
  unfold processLines
  rw [List.map_append, List.map_cons, h]
  rfl

/-- C4 witness: a batch of three lines whose middle line fails to parse. -/
theorem parse_failure_isolated_witness :
    processLines defaultEnv initialTools (fun _ => ParseOutcome.failure)
        (["x"] ++ "not json" :: ["y"]) =
      processLines defaultEnv initialTools (fun _ => ParseOutcome.failure) ["x"] ++
        createErrorResponse .null "Parse error: Invalid JSON" (-32700) ::
          processLines defaultEnv initialTools (fun _ => ParseOutcome.failure) ["y"] :=
  parse_failure_isolated defaultEnv initialTools (fun _ => ParseOutcome.failure)
    ["x"] ["y"] "not json" rfl

/-! ### C10 -/

/-- C10.  A line that parses to the JSON literal `null` makes the
`request.jsonrpc` read throw a `TypeError`; the outer catch (it is not a
`SyntaxError`) answers with code -32603 and `id: null` — not with -32600 and
not with -32700. -/
theorem processMessage_parsed_null (env : FileEnv) (tools : Registry) :
    processMessage env tools (.success .null) =
      createErrorResponse .null
        "Internal error: Cannot read properties of null (reading 'jsonrpc')"
        (-32603) ∧
    (-32603 : Int) ≠ -32600 ∧ (-32603 : Int) ≠ -32700 :=
  ⟨rfl, by decide, by decide⟩

/-! ### C5

The claim quantifies over every `tools/call` request whose `name` is absent
from the registry.  A request whose `name` is the empty string has a name
absent from the registry, but the dispatcher's `!name || typeof name !==
'string'` guard fires first and answers -32600, not -32601 — the
counterexample below.  The tool-not-found answer -32601 is reserved for
names that are non-empty strings, which is the amended statement. -/

/-- C5 counterexample: `""` is absent from the initialized registry, yet the
call is answered -32600 (the falsy-name guard), not -32601. -/
theorem toolCall_empty_name_counterexample :
    hasTool initialTools "" = false ∧
    handleToolCall defaultEnv initialTools
        (.obj [("name", .str ""), ("arguments", .obj [])]) (.num 1) =
      createErrorResponse (.num 1) "Invalid request: tool name must be a string"
        (-32600) ∧
    (-32600 : Int) ≠ -32601 :=
  ⟨rfl, rfl, by decide⟩

lemma getTool_eq_none (tools : Registry) (n : String)
    (h : hasTool tools n = false) : getTool tools n = none := by
  unfold getTool
  rw [List.find?_eq_none.2]
  intro p hp
  have := (List.any_eq_false).1 h p hp
  simpa using this

/-- C5 amended.  For every `tools/call` request whose `name` is a non-empty
string absent from the registry, the response is the tool-not-found error
with code -32601 — and, the response being this fixed error for every file
environment, no tool handler is ever invoked.  (A missing, empty or
non-string name is answered -32600 by the earlier guard; no handler runs
then either.) -/
theorem toolCall_unknown_name (env : FileEnv) (tools : Registry)
    (params id : JSValue) (nameStr : String)
    (hname : fieldOf params "name" = .str nameStr)
    (hne : nameStr ≠ "")
    (habs : hasTool tools nameStr = false) :
    handleToolCall env tools params id =
      createErrorResponse id ("Tool '" ++ nameStr ++ "' not found") (-32601) := by
  simp only [handleToolCall, hname]
  rw [getTool_eq_none tools nameStr habs]
  simp [hne]

/-- C5 witness: calling the unregistered name `nope`. -/
theorem toolCall_unknown_name_witness :
    handleToolCall defaultEnv initialTools
        (.obj [("name", .str "nope"), ("arguments", .obj [])]) (.num 1) =
      createErrorResponse (.num 1) ("Tool '" ++ "nope" ++ "' not found") (-32601) :=
  toolCall_unknown_name defaultEnv initialTools
    (.obj [("name", .str "nope"), ("arguments", .obj [])]) (.num 1) "nope"
    rfl (by decide) rfl

/-! ### C7

For a parsed object not versioned `jsonrpc: "2.0"`, the code answers -32600
with `request?.id`.  When the object carries an `id` field the claim holds;
when it does not, `request?.id` is `undefined` — not `null` as claimed — and
`JSON.stringify` then omits the `id` member from the serialized response.
The counterexample exhibits the missing-`id` case; the amended statement
replaces "else null" by "else undefined (omitted when serialized)". -/

/-- C7 counterexample: a parsed object with no `id` field and a wrong
version is answered with `id: undefined`, which is not `null`. -/
theorem invalid_version_id_counterexample :
    processMessage defaultEnv initialTools
        (.success (.obj [("jsonrpc", .str "1.0")])) =
      createErrorResponse .undefined "Invalid JSON-RPC version" (-32600) ∧
    JSValue.undefined ≠ JSValue.null :=
  ⟨rfl, fun h => JSValue.noConfusion h⟩

/-- C7 amended.  For every parsed object whose `jsonrpc` field is missing or
not the string `"2.0"`, the response has code -32600 and its `id` is the
request's `id` field when present, else `undefined` (`lookupField` reads the
field and yields `undefined` for a missing one; `JSON.stringify` then omits
the member). -/
theorem invalid_version_response (env : FileEnv) (tools : Registry)
    (fields : List (String × JSValue))
    (h : isVersion20 (lookupField fields "jsonrpc") = false) :
    processMessage env tools (.success (.obj fields)) =
      createErrorResponse (lookupField fields "id") "Invalid JSON-RPC version"
        (-32600) := by
  simp [processMessage, getProp, fieldOf, h]

/-- C7 witness: version `"1.0"` with an `id` present, echoed back. -/
theorem invalid_version_response_witness :
    processMessage defaultEnv initialTools
        (.success (.obj [("jsonrpc", .str "1.0"), ("id", .num 7)])) =
      createErrorResponse
        (lookupField [("jsonrpc", .str "1.0"), ("id", .num 7)] "id")
        "Invalid JSON-RPC version" (-32600) :=
  invalid_version_response defaultEnv initialTools
    [("jsonrpc", .str "1.0"), ("id", .num 7)] rfl

/-! ### C6 -/

/-- C6.  For a `tools/call` request on a registered tool whose arguments are
supplied as an object: a required field absent from the arguments is
answered -32602 with `Missing required parameter: <field>` (the field the
loop finds first), and a supplied `stringToAppend` of the wrong shape (not a
string) is answered -32602 with a message naming the field. -/
theorem toolCall_invalid_params (env : FileEnv) (tools : Registry)
    (params id args : JSValue) (nameStr : String) (tool : Tool)
    (hname : fieldOf params "name" = .str nameStr)
    (hne : nameStr ≠ "")
    (hreg : getTool tools nameStr = some tool)
    (hargs : fieldOf params "arguments" = args)
    (htr : truthy args = true)
    (hobj : typeofJS args = "object") :
    (∀ f, firstMissing (requiredOf tool) args = some f →
      handleToolCall env tools params id =
        createErrorResponse id ("Missing required parameter: " ++ f) (-32602)) ∧
    (nameStr = "append-string" → firstMissing (requiredOf tool) args = none →
      typeofJS (fieldOf args "stringToAppend") ≠ "string" →
      handleToolCall env tools params id =
        createErrorResponse id "Invalid parameter: stringToAppend must be a string"
          (-32602)) := by
  constructor
  · intro f hf
    simp only [handleToolCall, hname, hargs]
    rw [hreg]
    simp [hne, htr, hobj, hf]
  · intro hap hnone hts
    subst hap
    simp only [handleToolCall, hname, hargs]
    rw [hreg]
    simp only [hne, htr, hobj, hnone]
    cases hv : fieldOf args "stringToAppend" with
    | str s => rw [hv] at hts; exact absurd rfl hts
    | undefined => simp [hne, htr, hobj, hnone, hv]
    | null => simp [hne, htr, hobj, hnone, hv]
    | bool b => simp [hne, htr, hobj, hnone, hv]
    | num n => simp [hne, htr, hobj, hnone, hv]
    | obj fs => simp [hne, htr, hobj, hnone, hv]
    | arr es => simp [hne, htr, hobj, hnone, hv]

/-- C6 witness: the registered `append-string` tool called once with empty
arguments (missing required field) and once with a numeric
`stringToAppend` (wrong shape). -/
theorem toolCall_invalid_params_witness :
    (handleToolCall defaultEnv initialTools
        (.obj [("name", .str "append-string"), ("arguments", .obj [])]) (.num 1) =
      createErrorResponse (.num 1)
        ("Missing required parameter: " ++ "stringToAppend") (-32602)) ∧
    (handleToolCall defaultEnv initialTools
        (.obj [("name", .str "append-string"),
               ("arguments", .obj [("stringToAppend", .num 5)])]) (.num 2) =
      createErrorResponse (.num 2)
        "Invalid parameter: stringToAppend must be a string" (-32602)) := by
  constructor
  · exact (toolCall_invalid_params defaultEnv initialTools
      (.obj [("name", .str "append-string"), ("arguments", .obj [])]) (.num 1)
      (.obj []) "append-string"
      ⟨"append-string", "Reads create-prd.md and appends a string to it",
        some appendStringSchema, appendStringConfig.metadata⟩
      rfl (by decide) rfl rfl rfl rfl).1 "stringToAppend" rfl
  · exact (toolCall_invalid_params defaultEnv initialTools
      (.obj [("name", .str "append-string"),
             ("arguments", .obj [("stringToAppend", .num 5)])]) (.num 2)
      (.obj [("stringToAppend", .num 5)]) "append-string"
      ⟨"append-string", "Reads create-prd.md and appends a string to it",
        some appendStringSchema, appendStringConfig.metadata⟩
      rfl (by decide) rfl rfl rfl rfl).2 rfl rfl (by decide)

/-! ### C9 -/

/-- Whether a response is the "missing required parameter" error: code
-32602 with a message of that fixed prefix. -/
def isMissingParamError (r : Response) : Bool :=
  match r.error with
  | some e => e.code == -32602 &&
      "Missing required parameter: ".toList.isPrefixOf e.message.toList
  | none => false

lemma getTool_of_mem (tools : Registry) (n : String) (t : Tool)
    (hnd : (tools.map Prod.fst).Nodup) (hmem : (n, t) ∈ tools) :
    getTool tools n = some t := by
  induction tools with
  | nil => cases hmem
  | cons p rest ih =>
    rcases List.mem_cons.1 hmem with h | h
    · obtain rfl := h.symm
      simp [getTool, List.find?]
    · have hn : n ∈ rest.map Prod.fst := List.mem_map.2 ⟨(n, t), h, rfl⟩
      have hnd1 : (p.1 :: rest.map Prod.fst).Nodup := by
        simpa only [List.map_cons] using hnd
      have hnd' := List.nodup_cons.1 hnd1
      have hne : (p.1 == n) = false := by
        refine beq_eq_false_iff_ne.2 fun e => ?_
        exact hnd'.1 (e ▸ hn)
      have ih' := ih hnd'.2 h
      simp only [getTool, List.find?] at ih' ⊢
      rw [hne]
      exact ih'

/-- C9.  For every tool the registry lists (so every tool `tools/list`
returns — its result is exactly `getAllTools`), a `tools/call` naming that
tool whose argument object supplies every field the tool's `inputSchema`
marks required is never answered with a "missing required parameter"
error. -/
theorem listed_call_never_missing_param (env : FileEnv) (tools : Registry)
    (params id args : JSValue) (tool : Tool)
    (hnd : (tools.map Prod.fst).Nodup)
    (hmem : (tool.name, tool) ∈ tools)
    (hname : fieldOf params "name" = .str tool.name)
    (hargs : fieldOf params "arguments" = args)
    (htr : truthy args = true)
    (hobj : typeofJS args = "object")
    (hall : ∀ f ∈ requiredOf tool, hasField args f = true) :
    tool ∈ getAllTools tools ∧
    isMissingParamError (handleToolCall env tools params id) = false := by
  refine ⟨List.mem_map.2 ⟨(tool.name, tool), hmem, rfl⟩, ?_⟩
  have hget : getTool tools tool.name = some tool := getTool_of_mem tools _ tool hnd hmem
  have hmiss : firstMissing (requiredOf tool) args = none := by
    unfold firstMissing
    rw [List.find?_eq_none]
    intro f hf
    simp [hall f hf]
  by_cases hn0 : tool.name = ""
  · simp [handleToolCall, hname, hn0, isMissingParamError, createErrorResponse]
  · simp only [handleToolCall, hname, hargs]
    rw [hget]
    simp only [hn0, htr, hobj, hmiss]
    by_cases hap : tool.name = "append-string"
    · simp only [hap]
      cases hv : fieldOf args "stringToAppend" with
      | str s =>
        cases hres : appendString env (.str s) with
        | ok r =>
          simp [hn0, htr, hobj, hmiss, hv, hres, isMissingParamError]
        | error payload =>
          simp [hn0, htr, hobj, hmiss, hv, hres, isMissingParamError,
            createErrorResponse]
      | undefined =>
        simp [hn0, htr, hobj, hmiss, hv, isMissingParamError, createErrorResponse]
        decide
      | null =>
        simp [hn0, htr, hobj, hmiss, hv, isMissingParamError, createErrorResponse]
        decide
      | bool b =>
        simp [hn0, htr, hobj, hmiss, hv, isMissingParamError, createErrorResponse]
        decide
      | num n =>
        simp [hn0, htr, hobj, hmiss, hv, isMissingParamError, createErrorResponse]
        decide
      | obj fs =>
        simp [hn0, htr, hobj, hmiss, hv, isMissingParamError, createErrorResponse]
        decide
      | arr es =>
        simp [hn0, htr, hobj, hmiss, hv, isMissingParamError, createErrorResponse]
        decide
    · simp [hn0, htr, hobj, hmiss, hap, isMissingParamError, createErrorResponse]

/-- C9 witness: the listed `append-string` tool called with its one required
argument supplied (here with a whitespace-only value, so the call even
fails — but never with a missing-parameter error). -/
theorem listed_call_never_missing_param_witness :
    (⟨"append-string", "Reads create-prd.md and appends a string to it",
        some appendStringSchema, appendStringConfig.metadata⟩ : Tool) ∈
      getAllTools initialTools ∧
    isMissingParamError (handleToolCall defaultEnv initialTools
      (.obj [("name", .str "append-string"),
             ("arguments", .obj [("stringToAppend", .str "   ")])]) (.num 1)) =
      false :=
  listed_call_never_missing_param defaultEnv initialTools
    (.obj [("name", .str "append-string"),
           ("arguments", .obj [("stringToAppend", .str "   ")])]) (.num 1)
    (.obj [("stringToAppend", .str "   ")])
    ⟨"append-string", "Reads create-prd.md and appends a string to it",
      some appendStringSchema, appendStringConfig.metadata⟩
    (by decide) (by exact List.mem_cons_self _ _) rfl rfl rfl rfl
    (by decide)

/-! ### C8 -/

/-- A sequence of `registerTool` calls applied in order; a call that throws
(duplicate name) leaves the registry unchanged, as a thrown
`registerTool` mutates nothing. -/
def applyRegs : Registry → List (String × ToolConfig) → Registry
  | tools, [] => tools
  | tools, (n, c) :: rest =>
    match registerTool tools n c with
    | .ok tools2 => applyRegs tools2 rest
    | .error _ => applyRegs tools rest

/-- The names a sequence of registrations leaves registered, in
first-successful-registration order, starting from the names in `acc`. -/
def regOrder (acc : List String) : List (String × ToolConfig) → List String
  | [] => acc
  | (n, _) :: rest =>
    if n ∈ acc then regOrder acc rest else regOrder (acc ++ [n]) rest

lemma hasTool_iff (tools : Registry) (n : String) :
    hasTool tools n = true ↔ n ∈ tools.map Prod.fst := by
  simp [hasTool, List.any_eq_true, List.mem_map]

lemma register_fails_iff (tools : Registry) (n : String) (c : ToolConfig) :
    (∃ e, registerTool tools n c = .error e) ↔ n ∈ tools.map Prod.fst := by
  unfold registerTool
  by_cases h : hasTool tools n
  · simp only [h, if_pos rfl]
    exact ⟨fun _ => (hasTool_iff tools n).1 h, fun _ => ⟨_, rfl⟩⟩
  · have h' : hasTool tools n = false := by simpa using h
    rw [h']
    simp only [Bool.false_eq_true, if_false]
    constructor
    · rintro ⟨e, he⟩
      cases he
    · intro hm
      exact absurd ((hasTool_iff tools n).2 hm) (h' ▸ by simp)

/-- C8.  Starting from any registry with pairwise-distinct names (the
initialized server starts from the empty one) and applying any sequence of
registrations: the registry's names stay pairwise distinct; they are exactly
the starting names followed by the newly registered ones in
first-successful-registration order; a further `registerTool` fails exactly
when its name is already present (the duplicate-tool condition); and
`tools/list` returns the registered tools in exactly the registry's
insertion order. -/
theorem registry_unique_and_ordered (tools0 : Registry)
    (ops : List (String × ToolConfig))
    (hnd : (tools0.map Prod.fst).Nodup) :
    ((applyRegs tools0 ops).map Prod.fst).Nodup ∧
    (applyRegs tools0 ops).map Prod.fst = regOrder (tools0.map Prod.fst) ops ∧
    (∀ n c, (∃ e, registerTool (applyRegs tools0 ops) n c = .error e) ↔
      n ∈ (applyRegs tools0 ops).map Prod.fst) ∧
    ∀ id, handleToolsList (applyRegs tools0 ops) id =
      { id := id,
        result := some (.tools ((applyRegs tools0 ops).map (fun p => p.2))),
        error := none } := by
  have main : ∀ (ops2 : List (String × ToolConfig)) (t0 : Registry),
      (t0.map Prod.fst).Nodup →
      ((applyRegs t0 ops2).map Prod.fst).Nodup ∧
      (applyRegs t0 ops2).map Prod.fst = regOrder (t0.map Prod.fst) ops2 := by
    intro ops2
    induction ops2 with
    | nil => exact fun t0 h => ⟨h, rfl⟩
    | cons op rest ih =>
      intro t0 hnd0
      obtain ⟨n, c⟩ := op
      by_cases h : hasTool t0 n
      · have hmem : n ∈ t0.map Prod.fst := (hasTool_iff _ _).1 h
        have e1 : applyRegs t0 ((n, c) :: rest) = applyRegs t0 rest := by
          simp [applyRegs, registerTool, h]
        have e2 : regOrder (t0.map Prod.fst) ((n, c) :: rest) =
            regOrder (t0.map Prod.fst) rest := by
          simp [regOrder, hmem]
        rw [e1, e2]
        exact ih t0 hnd0
      · have h' : hasTool t0 n = false := by simpa using h
        have hmem : n ∉ t0.map Prod.fst :=
          fun hm => absurd ((hasTool_iff _ _).2 hm) (h' ▸ by simp)
        have e1 : applyRegs t0 ((n, c) :: rest) =
            applyRegs (t0 ++ [(n, mkTool n c)]) rest := by
          simp [applyRegs, registerTool, h']
        have e2 : regOrder (t0.map Prod.fst) ((n, c) :: rest) =
            regOrder (t0.map Prod.fst ++ [n]) rest := by
          simp [regOrder, hmem]
        have hnd2 : ((t0 ++ [(n, mkTool n c)]).map Prod.fst).Nodup := by
          rw [List.map_append]
          exact List.Nodup.append hnd0 (List.nodup_singleton _)
            (List.disjoint_singleton.2 hmem)
        obtain ⟨ha, hb⟩ := ih _ hnd2
        refine ⟨by rw [e1]; exact ha, ?_⟩
        rw [e1, e2, hb]
        simp [List.map_append]
  exact ⟨(main ops tools0 hnd).1, (main ops tools0 hnd).2,
    fun n c => register_fails_iff _ n c, fun id => rfl⟩

/-- C8 witness: from the empty registry, registering `append-string`, then
`append-string` again (the duplicate is refused), then `other`. -/
theorem registry_unique_and_ordered_witness :
    ((applyRegs [] [("append-string", appendStringConfig),
        ("append-string", appendStringConfig),
        ("other", appendStringConfig)]).map Prod.fst).Nodup ∧
    (applyRegs [] [("append-string", appendStringConfig),
        ("append-string", appendStringConfig),
        ("other", appendStringConfig)]).map Prod.fst =
      regOrder (([] : Registry).map Prod.fst)
        [("append-string", appendStringConfig),
         ("append-string", appendStringConfig),
         ("other", appendStringConfig)] ∧
    (∀ n c, (∃ e, registerTool (applyRegs []
          [("append-string", appendStringConfig),
           ("append-string", appendStringConfig),
           ("other", appendStringConfig)]) n c = .error e) ↔
      n ∈ (applyRegs [] [("append-string", appendStringConfig),
          ("append-string", appendStringConfig),
          ("other", appendStringConfig)]).map Prod.fst) ∧
    ∀ id, handleToolsList (applyRegs []
        [("append-string", appendStringConfig),
         ("append-string", appendStringConfig),
         ("other", appendStringConfig)]) id =
      { id := id,
        result := some (.tools ((applyRegs []
          [("append-string", appendStringConfig),
           ("append-string", appendStringConfig),
           ("other", appendStringConfig)]).map (fun p => p.2))),
        error := none } :=
  registry_unique_and_ordered []
    [("append-string", appendStringConfig),
     ("append-string", appendStringConfig),
     ("other", appendStringConfig)] (by simp)

end MCP
